import Mathlib

/-!
Verification of the mountebank response resolver core.

A shallow embedding of the response resolution and proxy-recording engine
(`src/unnamed/part_001`, the `responseResolver` module) of this repository,
together with theorems settling the specification's claims about it.

JavaScript values flowing through the resolver (requests, predicates,
responses, response configurations) are modelled by the JSON-like type
`Value`; the asynchronous promise layer is collapsed to direct values
(the source composes promises single-threadedly without parallelism);
wall-clock timing and the external collaborators (the protocol proxy,
the behaviors pipeline, the selector engines, sandboxed `eval`) are
abstract parameters collected in `Ctx`.
-/

namespace MbResolver

/-- A JavaScript/JSON value as the resolver manipulates it: `undefined` models
JavaScript `undefined` (distinct from `null`); objects keep their fields in
insertion order, as JavaScript objects do. -/
inductive Value where
  | undefined : Value
  | null : Value
  | bool : Bool → Value
  | num : Int → Value
  | str : String → Value
  | arr : List Value → Value
  | obj : List (String × Value) → Value
deriving Repr, Inhabited

mutual
/-- Structural (`===`-style, but deep) equality test on `Value`. -/
def beqValue : Value → Value → Bool
  | .undefined, .undefined => true
  | .null, .null => true
  | .bool a, .bool b => a == b
  | .num a, .num b => a == b
  | .str a, .str b => a == b
  | .arr a, .arr b => beqValueList a b
  | .obj a, .obj b => beqFieldList a b
  | _, _ => false

def beqValueList : List Value → List Value → Bool
  | [], [] => true
  | x :: xs, y :: ys => beqValue x y && beqValueList xs ys
  | _, _ => false

def beqFieldList : List (String × Value) → List (String × Value) → Bool
  | [], [] => true
  | (k1, v1) :: xs, (k2, v2) :: ys => k1 == k2 && beqValue v1 v2 && beqFieldList xs ys
  | _, _ => false
end

mutual
def beqValue_refl : ∀ a, beqValue a a = true
  | .undefined => rfl
  | .null => rfl
  | .bool _ => by simp [beqValue]
  | .num _ => by simp [beqValue]
  | .str _ => by simp [beqValue]
  | .arr xs => by simp only [beqValue]; exact beqValueList_refl xs
  | .obj kvs => by simp only [beqValue]; exact beqFieldList_refl kvs

def beqValueList_refl : ∀ xs, beqValueList xs xs = true
  | [] => rfl
  | x :: xs => by
      simp only [beqValueList, Bool.and_eq_true]
      exact ⟨beqValue_refl x, beqValueList_refl xs⟩

def beqFieldList_refl : ∀ xs, beqFieldList xs xs = true
  | [] => rfl
  | (k, v) :: xs => by
      simp only [beqFieldList, Bool.and_eq_true, beq_self_eq_true, true_and]
      exact ⟨beqValue_refl v, beqFieldList_refl xs⟩
end

instance : BEq Value := ⟨beqValue⟩


/-- Field access `v[k]`: the first binding of `k` in an object, `undefined`
otherwise (property access on primitives yields `undefined`; access on
`null`/`undefined` would throw in JavaScript and is not exercised here). -/
def getField (v : Value) (k : String) : Value :=
  match v with
  | .obj kvs =>
      match kvs.find? (fun p => p.1 == k) with
      | some p => p.2
      | none => .undefined
  | _ => .undefined

/-- JavaScript truthiness. -/
def truthy : Value → Bool
  | .undefined => false
  | .null => false
  | .bool b => b
  | .num n => n != 0
  | .str s => s != ""
  | .arr _ => true
  | .obj _ => true

/-- `helpers.defined`: `typeof obj !== 'undefined'`. -/
def defined (v : Value) : Bool := v != .undefined

/-- `helpers.isObject`: a plain object (arrays and primitives excluded). -/
def isObject : Value → Bool
  | .obj _ => true
  | _ => false

def isArr : Value → Bool
  | .arr _ => true
  | _ => false

/-- Property assignment `v[k] := x`: overwrites the binding in place if the
key exists (keeping its position, as JavaScript does), appends it otherwise;
assignment on a non-object is silently ignored (as on JS primitives). -/
def setField (v : Value) (k : String) (x : Value) : Value :=
  match v with
  | .obj kvs =>
      if kvs.any (fun p => p.1 == k) then
        .obj (kvs.map (fun p => if p.1 == k then (p.1, x) else p))
      else
        .obj (kvs ++ [(k, x)])
  | _ => v

/-- Lexicographic comparison of strings by code point, the default key sort
of `json-stable-stringify`. -/
def charListLe : List Char → List Char → Bool
  | [], _ => true
  | _ :: _, [] => false
  | a :: as, b :: bs =>
      if a.toNat < b.toNat then true
      else if b.toNat < a.toNat then false
      else charListLe as bs

def strLe (a b : String) : Bool := charListLe a.data b.data

/-- Insertion sort of object fields by key, the stable key ordering
`json-stable-stringify` serializes with. -/
def insertByKey (p : String × Value) : List (String × Value) → List (String × Value)
  | [] => [p]
  | q :: rest => if strLe p.1 q.1 then p :: q :: rest else q :: insertByKey p rest

def sortByKey : List (String × Value) → List (String × Value)
  | [] => []
  | p :: rest => insertByKey p (sortByKey rest)

mutual
/-- The canonical form `json-stable-stringify` serializes: object keys are
sorted, `undefined`-valued fields are dropped, `undefined` array elements
become `null` (as in `JSON.stringify`). Two values are `deepEqual` in the
source iff their canonical forms coincide. -/
def canon : Value → Value
  | .arr xs => .arr (canonArr xs)
  | .obj kvs => .obj (sortByKey (canonFields kvs))
  | v => v

def canonArr : List Value → List Value
  | [] => []
  | x :: rest =>
      (match canon x with
       | .undefined => .null
       | c => c) :: canonArr rest

def canonFields : List (String × Value) → List (String × Value)
  | [] => []
  | (k, v) :: rest =>
      match canon v with
      | .undefined => canonFields rest
      | c => (k, c) :: canonFields rest
end

/-- `deepEqual` (source line 163): equality of `json-stable-stringify`
serializations, i.e. canonical-form equality. -/
def deepEqual (a b : Value) : Bool := beqValue (canon a) (canon b)

/-- `deepEqual` applied to two predicate arrays, as the source does with
`deepEqual(predicates, stubList[index].predicates)`. -/
def listDeepEqual (xs ys : List Value) : Bool := beqValue (canon (.arr xs)) (canon (.arr ys))

/-- Modelled from the spec: `helpers.clone` (a util module not under `src/`)
performs a deep copy of a JSON value ("deep-clone the configured payload",
§4.6; "Clones to prevent accidental state changes downstream"). Under the
value semantics of this embedding, a deep copy of an immutable value is the
value itself. -/
def clone (v : Value) : Value := v

/-- The external collaborators of the resolver, abstracted: the two selector
engines (`./xpath`, `./jsonpath`), sandboxed `eval` of user-supplied logic,
the behaviors pipeline (`./behaviors`), the in-process protocol proxy, and
the measured round-trip latency (wall-clock time is outside the embedding).
These are all opaque to the resolver; theorems quantify over them. -/
structure Ctx where
  /-- `Boolean(proxy)`: whether a protocol-specific in-process proxy exists. -/
  inProcessProxy : Bool
  /-- The protocol callback URL for two-phase response resolution. -/
  callbackURL : String
  /-- `xpath.select(selector, ns, possibleXML, logger)`: the matched nodes. -/
  xsel : Value → Value → Value → Value
  /-- `jsonpath.select(selector, possibleJSON, logger)`: the matched nodes. -/
  jsel : Value → Value → Value
  /-- Sandboxed evaluation of a predicate-generator's `inject` source over
  `{request, logger}`, yielding the predicate list it returns. -/
  predInject : Value → Value → List Value
  /-- Sandboxed evaluation of a dynamic response's source against its bound
  execution context; a direct return and an invocation of the completion
  callback are both folded into the returned response, a thrown fault into
  the error message. -/
  injectEval : Value → Value → Except String Value
  /-- `behaviors.execute(request, response, behaviors, logger)`. -/
  behaviorsExecute : Value → Value → Value → Value
  /-- `proxy.to(to, request, proxyConfig, requestDetails)`: the observed
  downstream response. -/
  proxyTo : Value → Value → Value → Value → Value
  /-- The `_proxyResponseTime` stamped onto an observed response
  (`new Date() - startTime`). -/
  proxyResponseTime : Value

/-- `selectionValue` (source lines 65-76): collapses a selector's match set —
empty string when undefined, the scalar itself when not an array (booleans
and counts), the bare node when exactly one matches, the list otherwise. -/
def selectionValue (nodes : Value) : Value :=
  if !(defined nodes) then .str ""
  else
    match nodes with
    | .arr ns =>
        match ns with
        | [n] => n
        | _ => .arr ns
    | v => v

/-- `xpathValue` (source lines 78-82). -/
def xpathValue (ctx : Ctx) (xpathConfig possibleXML : Value) : Value :=
  selectionValue (ctx.xsel (getField xpathConfig "selector") (getField xpathConfig "ns") possibleXML)

/-- `jsonpathValue` (source lines 84-88). -/
def jsonpathValue (ctx : Ctx) (jsonpathConfig possibleJSON : Value) : Value :=
  selectionValue (ctx.jsel (getField jsonpathConfig "selector") possibleJSON)

mutual
/-- `buildEquals` (source lines 90-103): mirrors the nesting of the matcher
spec, recursing where the request field is itself an object and extracting
leaf values otherwise. (`Object.keys` of a non-object matcher enumerates no
keys, so such a matcher yields an empty object.) -/
def buildEquals (request matchers : Value) (valueOf : Value → Value) : Value :=
  match matchers with
  | .obj kvs => .obj (buildEqualsFields request kvs valueOf)
  | _ => .obj []

def buildEqualsFields (request : Value) (kvs : List (String × Value)) (valueOf : Value → Value) :
    List (String × Value) :=
  match kvs with
  | [] => []
  | p :: rest =>
      (if isObject (getField request p.1) then
        (p.1, buildEquals (getField request p.1) p.2 valueOf)
      else
        (p.1, valueOf (getField request p.1))) :: buildEqualsFields request rest valueOf
end

/-- The `valueOf` a matcher induces (source lines 127-140): identity unless an
`xpath` or `jsonpath` key selects extraction, the later key winning as in the
source's key iteration. -/
def valueOfFor (ctx : Ctx) (matcher : Value) : Value → Value :=
  match matcher with
  | .obj kvs =>
      kvs.foldl
        (fun acc p =>
          if p.1 == "xpath" then fun field => xpathValue ctx (getField matcher "xpath") field
          else if p.1 == "jsonpath" then fun field => jsonpathValue ctx (getField matcher "jsonpath") field
          else acc)
        (fun field => field)
  | _ => fun field => field

/-- The `basePredicate` of a matcher (source lines 126-133): every key of the
matcher other than `matches` is carried onto the generated predicate. -/
def basePredicateFor (matcher : Value) : Value :=
  match matcher with
  | .obj kvs => .obj (kvs.filter (fun p => p.1 != "matches"))
  | _ => .obj []

/-- The predicates one generator spec contributes (source lines 108-158): a
matcher with custom `inject` logic splices in whatever that logic returns
(its sandboxed evaluation is the abstract `Ctx.predInject`; the error path of
that `eval` is not modelled); otherwise each field of `matches` yields one
predicate — `deepEquals` on the (possibly selector-extracted) field value
when the matcher value is literally `true`, a structurally mirrored `equals`
otherwise. -/
def predicatesForMatcher (ctx : Ctx) (request matcher : Value) : List Value :=
  if truthy (getField matcher "inject") then
    ctx.predInject (getField matcher "inject") request
  else
    let basePredicate := basePredicateFor matcher
    let valueOf := valueOfFor ctx matcher
    match getField matcher "matches" with
    | .obj fields =>
        fields.map (fun p =>
          if beqValue p.2 (.bool true) then
            setField (clone basePredicate) "deepEquals" (.obj [(p.1, valueOf (getField request p.1))])
          else
            setField (clone basePredicate) "equals" (.obj [(p.1, buildEquals (getField request p.1) p.2 valueOf)]))
    | _ => []

/-- `predicatesFor` (source lines 105-161). -/
def predicatesFor (ctx : Ctx) (request : Value) (matchers : List Value) : List Value :=
  matchers.flatMap (predicatesForMatcher ctx request)

/-- A Rule ("stub") of the Rule Repository: an ordered predicate list and an
ordered response list. -/
structure Stub where
  predicates : List Value
  responses : List Value
deriving Repr, Inhabited

/-- `responseConfig.proxy.predicateGenerators || []` (source line 179/219);
a falsy (or non-array) generator list iterates nothing. -/
def predicateGeneratorsOf (responseConfig : Value) : List Value :=
  match getField (getField responseConfig "proxy") "predicateGenerators" with
  | .arr gs => gs
  | _ => []

/-- `responseConfig.proxy.mode`. -/
def proxyMode (responseConfig : Value) : Value :=
  getField (getField responseConfig "proxy") "mode"

/-- `stubIndexFor` (source lines 168-176): the index of the first stub one of
whose responses is `deepEqual` to the given response config; the repository
length when none is. -/
def stubIndexFor (responseConfig : Value) : List Stub → Nat
  | [] => 0
  | s :: rest =>
      if s.responses.any (fun r => deepEqual r responseConfig) then 0
      else stubIndexFor responseConfig rest + 1

/-- The scan loop of `indexOfStubToAddResponseTo` (source lines 182-186),
scanning the suffix of the repository from absolute index `i`. -/
def findMatchAux (predicates : List Value) : List Stub → Nat → Option Nat
  | [], _ => none
  | s :: rest, i =>
      if listDeepEqual predicates s.predicates then some i
      else findMatchAux predicates rest (i + 1)

/-- `indexOfStubToAddResponseTo` (source lines 178-188): generates the
predicates this request would record under, then scans for a stub with a
structurally identical predicate list, starting just after the stub that
contains the originating proxy response config; `none` models the source's
`-1`. -/
def indexOfStubToAddResponseTo (ctx : Ctx) (responseConfig request : Value) (stubList : List Stub) :
    Option Nat :=
  findMatchAux (predicatesFor ctx request (predicateGeneratorsOf responseConfig))
    (stubList.drop (stubIndexFor responseConfig stubList + 1))
    (stubIndexFor responseConfig stubList + 1)

/-- `canAddResponseToExistingStub` (source lines 190-192). -/
def canAddResponseToExistingStub (ctx : Ctx) (responseConfig request : Value) (stubList : List Stub) :
    Bool :=
  (indexOfStubToAddResponseTo ctx responseConfig request stubList).isSome

/-- `newIsResponse` (source lines 194-209): wraps the observed response as a
static `is` response, attaching a `wait` behavior carrying the measured
latency and/or the configured `decorate` behavior when the proxy config asks
for them. -/
def newIsResponse (response proxyConfig : Value) : Value :=
  let addBehaviors : List (String × Value) :=
    (if truthy (getField proxyConfig "addWaitBehavior") &&
        truthy (getField response "_proxyResponseTime") then
      [("wait", getField response "_proxyResponseTime")]
    else []) ++
    (if truthy (getField proxyConfig "addDecorateBehavior") then
      [("decorate", getField proxyConfig "addDecorateBehavior")]
    else [])
  if addBehaviors.length > 0 then
    .obj [("is", response), ("_behaviors", .obj addBehaviors)]
  else
    .obj [("is", response)]

/-- `addNewResponse` (source lines 211-216): appends the wrapped response to
the responses of the stub the scan found. (The source indexes the repository
with the scan's result unconditionally; it is only invoked under the
`canAddResponseToExistingStub` guard, so the `none` fallthrough is dead.) -/
def addNewResponse (ctx : Ctx) (responseConfig request response : Value) (stubList : List Stub) :
    List Stub :=
  let stubResponse := newIsResponse response (getField responseConfig "proxy")
  match indexOfStubToAddResponseTo ctx responseConfig request stubList with
  | some i =>
      match stubList[i]? with
      | some s => stubList.set i { s with responses := s.responses ++ [stubResponse] }
      | none => stubList
  | none => stubList

/-- Modelled from the spec: the Rule Repository's rule-insertion operation
(`stubs.addStub`, an external collaborator not under `src/`). Per §4.4/§6,
when handed the originating proxy ResponseConfig it inserts the new rule
immediately after the rule containing that config; when called without one —
as the source's `proxyAlways` branch does — no originating position is
conveyed to the repository, and the rule is appended at the end. -/
def addStub (stubList : List Stub) (newStub : Stub) (anchor : Option Value) : List Stub :=
  match anchor with
  | some responseConfig =>
      let i := stubIndexFor responseConfig stubList
      stubList.take (i + 1) ++ [newStub] ++ stubList.drop (i + 1)
  | none => stubList ++ [newStub]

/-- `addNewStub` (source lines 218-229): synthesizes the new rule from the
generated predicates and the wrapped response; in `proxyAlways` mode it is
added without the positioning anchor, in every other mode with it. -/
def addNewStub (ctx : Ctx) (responseConfig request response : Value) (stubList : List Stub) :
    List Stub :=
  let predicates := predicatesFor ctx request (predicateGeneratorsOf responseConfig)
  let stubResponse := newIsResponse response (getField responseConfig "proxy")
  let newStub : Stub := { predicates := predicates, responses := [stubResponse] }
  if beqValue (proxyMode responseConfig) (.str "proxyAlways") then
    addStub stubList newStub none
  else
    addStub stubList newStub (some responseConfig)

/-- `recordProxyResponse` (source lines 231-243). -/
def recordProxyResponse (ctx : Ctx) (responseConfig request response : Value) (stubList : List Stub) :
    List Stub :=
  if beqValue (proxyMode responseConfig) (.str "proxyTransparent") then
    stubList
  else if beqValue (proxyMode responseConfig) (.str "proxyAlways") &&
      canAddResponseToExistingStub ctx responseConfig request stubList then
    addNewResponse ctx responseConfig request response stubList
  else
    addNewStub ctx responseConfig request response stubList

/-- The typed failures of `../util/errors` the resolver raises. -/
inductive Failure where
  | validationError (message : String) (source : Value)
  | injectionError (message : String) (data : String)
  | missingResourceError (message : String) (source : String)
deriving Repr

/-- A Pending Proxy Resolution (source lines 267-272): the state saved while
an out-of-process proxy round trip is in flight. (The `startTime` field only
feeds the latency stamp, which this embedding abstracts as
`Ctx.proxyResponseTime`.) -/
structure PendingProxyResolution where
  responseConfig : Value
  request : Value
  requestDetails : Value
deriving Repr, Inhabited

/-- The mutable closure state of `create` (source lines 15-20): the Rule
Repository's contents, the `pendingProxyResolutions` map (a JavaScript object
keyed by integer, modelled as an association list in insertion order) and
`nextProxyResolutionKey`. -/
structure ResolverState where
  stubList : List Stub
  pendingProxyResolutions : List (Nat × PendingProxyResolution)
  nextProxyResolutionKey : Nat
deriving Repr, Inhabited

/-- `pendingProxyResolutions[k]`. -/
def lookupPending (m : List (Nat × PendingProxyResolution)) (k : Nat) :
    Option PendingProxyResolution :=
  (m.find? (fun p => p.1 == k)).map Prod.snd

/-- `delete pendingProxyResolutions[k]`. -/
def removePending (m : List (Nat × PendingProxyResolution)) (k : Nat) :
    List (Nat × PendingProxyResolution) :=
  m.filter (fun p => p.1 != k)

/-- `inject` (source lines 22-63): a dry-run request short-circuits to an
empty response without touching the supplied logic (the artificial `Q.delay`
scheduling hop has no observable effect in this synchronous embedding);
otherwise the logic is evaluated sandboxed, a fault becoming a typed
`InjectionError`. -/
def inject (ctx : Ctx) (request fn : Value) : Except Failure Value :=
  if beqValue (getField request "isDryRun") (.bool true) then
    .ok (.obj [])
  else
    match ctx.injectEval fn request with
    | .ok response => .ok response
    | .error msg => .error (.injectionError "invalid response injection" msg)

/-- The mode test of source line 250:
`['proxyOnce', 'proxyAlways', 'proxyTransparent'].indexOf(mode) >= 0`. -/
def knownProxyMode (responseConfig : Value) : Bool :=
  beqValue (proxyMode responseConfig) (.str "proxyOnce") ||
  beqValue (proxyMode responseConfig) (.str "proxyAlways") ||
  beqValue (proxyMode responseConfig) (.str "proxyTransparent")

/-- Modelled from the spec: `responseConfig.setMetadata('proxy', {mode:
'proxyOnce'})` (source line 251) mutates the config through an explicit
repository-provided operation (not under `src/`); per §3's "mutated only
through explicit mutation operations" and this call's shape, it updates the
`mode` key of the config's proxy metadata, leaving the rest of the proxy
configuration (target, predicate generators, behavior flags) intact. -/
def setProxyModeOnce (responseConfig : Value) : Value :=
  setField responseConfig "proxy"
    (setField (getField responseConfig "proxy") "mode" (.str "proxyOnce"))

/-- `proxyAndRecord` (source lines 245-280), returning the resolver's answer,
the updated closure state, and the (possibly metadata-rewritten) response
config. An unrecognized recording mode is first rewritten to `proxyOnce`.
In-process, the downstream call is made, the latency stamped, behaviors run
to persist the decorated response, and the exchange recorded; out-of-process,
a Pending Proxy Resolution is stored under the freshly allocated key and a
callback URL embedding that key is handed to the external transport. -/
def proxyAndRecord (ctx : Ctx) (st : ResolverState) (responseConfig request requestDetails : Value) :
    Except Failure Value × ResolverState × Value :=
  let responseConfig :=
    if knownProxyMode responseConfig then responseConfig else setProxyModeOnce responseConfig
  if ctx.inProcessProxy then
    let response := ctx.proxyTo (getField (getField responseConfig "proxy") "to") request
      (getField responseConfig "proxy") requestDetails
    let response := setField response "_proxyResponseTime" ctx.proxyResponseTime
    let response := ctx.behaviorsExecute request response (getField responseConfig "_behaviors")
    (.ok response,
     { st with stubList := recordProxyResponse ctx responseConfig request response st.stubList },
     responseConfig)
  else
    let key := st.nextProxyResolutionKey
    (.ok (.obj [("proxy", getField responseConfig "proxy"), ("request", request),
                ("callbackURL", .str (ctx.callbackURL ++ "/" ++ toString key))]),
     { st with
        pendingProxyResolutions :=
          st.pendingProxyResolutions ++ [(key, ⟨responseConfig, request, requestDetails⟩)],
        nextProxyResolutionKey := key + 1 },
     responseConfig)

/-- `processResponse` (source lines 282-301): classifies the response config
and dispatches — a static `is` response is answered with a deep copy of the
configured payload, a `proxy` response via `proxyAndRecord`, an `inject`
response via the dynamic evaluator; anything else is a validation error. -/
def processResponse (ctx : Ctx) (st : ResolverState) (responseConfig request requestDetails : Value) :
    Except Failure Value × ResolverState × Value :=
  if truthy (getField responseConfig "is") then
    (.ok (clone (getField responseConfig "is")), st, responseConfig)
  else if truthy (getField responseConfig "proxy") then
    proxyAndRecord ctx st responseConfig request requestDetails
  else if truthy (getField responseConfig "inject") then
    (inject ctx request (getField responseConfig "inject"), st, responseConfig)
  else
    (.error (.validationError "unrecognized response type" (clone responseConfig)), st, responseConfig)

/-- `hasMultipleTypes` (source lines 303-307). -/
def hasMultipleTypes (responseConfig : Value) : Bool :=
  (truthy (getField responseConfig "is") && truthy (getField responseConfig "proxy")) ||
  (truthy (getField responseConfig "is") && truthy (getField responseConfig "inject")) ||
  (truthy (getField responseConfig "proxy") && truthy (getField responseConfig "inject"))

/-- `resolve` (source lines 319-347): rejects a config with more than one
response type before any dispatch; otherwise dispatches on a defensive clone
of the request, runs the behavior pipeline unless the proxy path already ran
it, and — when the proxy transport lives out of process — wraps a non-proxy
answer as `{response}` for the protocol implementation. -/
def resolve (ctx : Ctx) (st : ResolverState) (responseConfig request options : Value) :
    Except Failure Value × ResolverState × Value :=
  if hasMultipleTypes responseConfig then
    (.error (.validationError "each response object must have only one response type" responseConfig),
     st, responseConfig)
  else
    match processResponse ctx st responseConfig (clone request) options with
    | (.error e, st', rc') => (.error e, st', rc')
    | (.ok response, st', rc') =>
        let response :=
          if truthy (getField rc' "proxy") then response
          else ctx.behaviorsExecute request response (getField rc' "_behaviors")
        let response :=
          if ctx.inProcessProxy then response
          else if truthy (getField rc' "proxy") then response
          else .obj [("response", response)]
        (.ok response, st', rc')

/-- `resolveProxy` (source lines 360-384): a known key completes the pending
exchange — latency stamped, behaviors run against the original request and
config, the exchange recorded, the pending entry deleted (the `recordMatch`
closure the source also attaches is a function value outside this data
model); an unknown key is a `MissingResourceError` embedding the offending
callback address. -/
def resolveProxy (ctx : Ctx) (st : ResolverState) (proxyResponse : Value)
    (proxyResolutionKey : Nat) : Except Failure Value × ResolverState :=
  match lookupPending st.pendingProxyResolutions proxyResolutionKey with
  | some pendingProxyConfig =>
      let response := setField proxyResponse "_proxyResponseTime" ctx.proxyResponseTime
      let response := ctx.behaviorsExecute pendingProxyConfig.request response
        (getField pendingProxyConfig.responseConfig "_behaviors")
      (.ok response,
       { st with
          stubList := recordProxyResponse ctx pendingProxyConfig.responseConfig
            pendingProxyConfig.request response st.stubList,
          pendingProxyResolutions := removePending st.pendingProxyResolutions proxyResolutionKey })
  | none =>
      (.error (.missingResourceError "invalid proxy resolution key"
        (ctx.callbackURL ++ "/" ++ toString proxyResolutionKey)), st)

/-- The `newStub` a no-match recording synthesizes (source lines 218-221):
the generated predicates paired with the single wrapped response. -/
def recordedStub (ctx : Ctx) (responseConfig request response : Value) : Stub :=
  { predicates := predicatesFor ctx request (predicateGeneratorsOf responseConfig),
    responses := [newIsResponse response (getField responseConfig "proxy")] }

/-! Section: Concrete fixtures used by witnesses and counterexamples -/

/-- A concrete context with an in-process proxy, a behaviors pipeline that is
the identity (no behaviors configured) and trivial selector engines. -/
def ctxIn : Ctx :=
  { inProcessProxy := true
    callbackURL := "http://localhost:2525/imposters/3000/_requests"
    xsel := fun _ _ _ => .undefined
    jsel := fun _ _ => .undefined
    predInject := fun _ _ => []
    injectEval := fun _ _ => .ok (.obj [])
    behaviorsExecute := fun _ response _ => response
    proxyTo := fun _ _ _ _ => .obj [("body", .str "downstream")]
    proxyResponseTime := .num 42 }

/-- The same context with the proxy transport out of process. -/
def ctxOut : Ctx := { ctxIn with inProcessProxy := false }

def req0 : Value := .obj [("path", .str "/test"), ("method", .str "GET")]

/-- A `proxyAlways` proxy configuration generating a `deepEquals` predicate
on the request path. -/
def proxyCfgAlways : Value :=
  .obj [("to", .str "http://origin"), ("mode", .str "proxyAlways"),
        ("predicateGenerators", .arr [.obj [("matches", .obj [("path", .bool true)])]])]

def rcAlways : Value := .obj [("proxy", proxyCfgAlways)]

def rcTransparent : Value :=
  .obj [("proxy", .obj [("to", .str "http://origin"), ("mode", .str "proxyTransparent")])]

/-- The rule holding the originating `proxyAlways` response config. -/
def proxyStubAlways : Stub :=
  { predicates := [.obj [("equals", .obj [("method", .str "GET")])]],
    responses := [rcAlways] }

/-- An unrelated rule sitting after the proxy rule. -/
def otherStub : Stub := { predicates := [], responses := [] }

def c1Stubs : List Stub := [proxyStubAlways, otherStub]

def c1Resp : Value := .obj [("body", .str "observed")]

def r1v : Value := .obj [("body", .str "first")]
def r2v : Value := .obj [("body", .str "second")]
def r3v : Value := .obj [("body", .str "third")]

/-- A config with both the static and the proxy variant tags set. -/
def rcMulti : Value :=
  .obj [("is", .obj [("statusCode", .num 200)]),
        ("proxy", .obj [("to", .str "http://origin")])]

/-- A purely static config. -/
def rcStatic : Value :=
  .obj [("is", .obj [("statusCode", .num 200), ("body", .str "hello")])]

/-- A proxy config carrying an unrecognized recording mode. -/
def rcBadMode : Value :=
  .obj [("proxy", .obj [("to", .str "http://origin"), ("mode", .str "proxySometimes")])]

def stInit : ResolverState :=
  { stubList := [proxyStubAlways], pendingProxyResolutions := [], nextProxyResolutionKey := 0 }

/-! Section: Helper lemmas about the repository scans -/

theorem stubIndexFor_append (rc : Value) (l l' : List Stub)
    (h : stubIndexFor rc l < l.length) :
    stubIndexFor rc (l ++ l') = stubIndexFor rc l := by
  induction l with
  | nil => simp [stubIndexFor] at h
  | cons s rest ih =>
      by_cases hs : s.responses.any (fun r => deepEqual r rc) = true
      · simp [stubIndexFor, hs]
      · have hs' : s.responses.any (fun r => deepEqual r rc) = false :=
          Bool.eq_false_iff.mpr hs
        simp only [stubIndexFor, hs', List.cons_append, List.append_eq, if_false,
          List.length_cons, Bool.false_eq_true] at h ⊢
        have := ih (by omega)
        omega

theorem findMatchAux_append (preds : List Value) (l l₂ : List Stub) (i : Nat)
    (h : findMatchAux preds l i = none) :
    findMatchAux preds (l ++ l₂) i = findMatchAux preds l₂ (i + l.length) := by
  induction l generalizing i with
  | nil => simp [findMatchAux]
  | cons s rest ih =>
      by_cases hs : listDeepEqual preds s.predicates = true
      · simp [findMatchAux, hs] at h
      · have hs' : listDeepEqual preds s.predicates = false := Bool.eq_false_iff.mpr hs
        simp only [findMatchAux, hs', List.cons_append, List.append_eq, if_false,
          Bool.false_eq_true] at h ⊢
        rw [ih _ h]
        congr 1
        simp only [List.length_cons]
        omega

theorem set_append_length {α : Type} (l : List α) (x y : α) :
    (l ++ [x]).set l.length y = l ++ [y] := by
  induction l with
  | nil => rfl
  | cons a rest ih => simp [List.set, ih]

theorem listDeepEqual_refl (xs : List Value) : listDeepEqual xs xs = true :=
  beqValue_refl (canon (.arr xs))

/-- A `proxyAlways` recording that finds no predicate-identical rule appends
the synthesized rule at the end of the repository (the source's
`stubs.addStub(newStub)` call carries no positioning anchor). -/
theorem recordProxyResponse_appends
    (ctx : Ctx) (rc req resp : Value) (stubs : List Stub)
    (hmode : proxyMode rc = .str "proxyAlways")
    (hnone : indexOfStubToAddResponseTo ctx rc req stubs = none) :
    recordProxyResponse ctx rc req resp stubs = stubs ++ [recordedStub ctx rc req resp] := by
  have ht : beqValue (proxyMode rc) (.str "proxyTransparent") = false := by rw [hmode]; rfl
  have ha : beqValue (proxyMode rc) (.str "proxyAlways") = true := by rw [hmode]; rfl
  simp only [recordProxyResponse, ht, ha, canAddResponseToExistingStub, hnone,
    Option.isSome_none, Bool.and_false, Bool.false_eq_true, if_false, addNewStub,
    addStub, recordedStub, if_true]

/-- Extending the scan: if the original repository holds the originating
config at a proper index and no predicate-identical rule after it, then on
the repository with the synthesized rule appended, the scan finds exactly
that appended rule. -/
theorem indexOf_extended (ctx : Ctx) (rc req : Value) (stubs : List Stub) (ns : Stub)
    (hfound : stubIndexFor rc stubs < stubs.length)
    (hnone : indexOfStubToAddResponseTo ctx rc req stubs = none)
    (hpred : ns.predicates = predicatesFor ctx req (predicateGeneratorsOf rc)) :
    indexOfStubToAddResponseTo ctx rc req (stubs ++ [ns]) = some stubs.length := by
  unfold indexOfStubToAddResponseTo at hnone ⊢
  rw [stubIndexFor_append rc stubs [ns] hfound]
  rw [List.drop_append_eq_append_drop]
  rw [Nat.sub_eq_zero_of_le hfound, List.drop_zero]
  rw [findMatchAux_append _ _ _ _ hnone]
  rw [List.length_drop]
  have harith : stubIndexFor rc stubs + 1 + (stubs.length - (stubIndexFor rc stubs + 1)) =
      stubs.length := by omega
  rw [harith]
  simp [findMatchAux, hpred, listDeepEqual_refl]

/-- A `proxyAlways` recording onto a repository whose appended last rule
already carries the generated predicates extends that rule's response list. -/
theorem recordProxyResponse_extends
    (ctx : Ctx) (rc req resp : Value) (stubs : List Stub) (ns : Stub)
    (hmode : proxyMode rc = .str "proxyAlways")
    (hfound : stubIndexFor rc stubs < stubs.length)
    (hnone : indexOfStubToAddResponseTo ctx rc req stubs = none)
    (hpred : ns.predicates = predicatesFor ctx req (predicateGeneratorsOf rc)) :
    recordProxyResponse ctx rc req resp (stubs ++ [ns]) =
      stubs ++ [{ ns with responses := ns.responses ++ [newIsResponse resp (getField rc "proxy")] }] := by
  have hidx := indexOf_extended ctx rc req stubs ns hfound hnone hpred
  have ht : beqValue (proxyMode rc) (.str "proxyTransparent") = false := by rw [hmode]; rfl
  have ha : beqValue (proxyMode rc) (.str "proxyAlways") = true := by rw [hmode]; rfl
  simp only [recordProxyResponse, ht, ha, canAddResponseToExistingStub, hidx,
    Option.isSome_some, Bool.and_self, Bool.false_eq_true, if_false, if_true,
    addNewResponse, List.getElem?_concat_length]
  exact set_append_length stubs ns _

/-! Section: Helper lemmas about field access and the pending map -/

theorem isObject_of_truthy_getField (v : Value) (k : String)
    (h : truthy (getField v k) = true) : isObject v = true := by
  cases v
  case obj kvs => rfl
  all_goals exact Bool.noConfusion h

theorem truthy_setField_of_isObject (v : Value) (k : String) (x : Value)
    (h : isObject v = true) : truthy (setField v k x) = true := by
  cases v
  case obj kvs =>
      by_cases hany : kvs.any (fun p => p.1 == k) = true
      · simp only [setField, hany, if_true]
        rfl
      · simp only [setField, Bool.eq_false_iff.mpr hany, Bool.false_eq_true, if_false]
        rfl
  all_goals exact Bool.noConfusion h

theorem find?_replaceKey_same (kvs : List (String × Value)) (k : String) (x : Value)
    (h : kvs.any (fun p => p.1 == k) = true) :
    ∃ k', ((kvs.map (fun p => if p.1 == k then (p.1, x) else p)).find?
      (fun p => p.1 == k)) = some (k', x) := by
  induction kvs with
  | nil => simp at h
  | cons p rest ih =>
      rw [List.map_cons]
      by_cases hp : (p.1 == k) = true
      · refine ⟨p.1, ?_⟩
        rw [if_pos hp]
        simp only [List.find?_cons, hp, cond_true]
      · have hp' : (p.1 == k) = false := Bool.eq_false_iff.mpr hp
        simp only [List.any_cons, hp', Bool.false_or] at h
        obtain ⟨k', hk'⟩ := ih h
        refine ⟨k', ?_⟩
        rw [if_neg (by simp [hp'])]
        simp only [List.find?_cons, hp', cond_false]
        exact hk'

theorem getField_setField_same (v : Value) (k : String) (x : Value)
    (h : isObject v = true) : getField (setField v k x) k = x := by
  cases v
  case obj kvs =>
      by_cases hany : kvs.any (fun p => p.1 == k) = true
      · simp only [setField, hany, if_true, getField]
        obtain ⟨k', hk'⟩ := find?_replaceKey_same kvs k x hany
        rw [hk']
      · have hany' : kvs.any (fun p => p.1 == k) = false := Bool.eq_false_iff.mpr hany
        have hnone : kvs.find? (fun p => p.1 == k) = none :=
          List.find?_eq_none.mpr (List.any_eq_false.mp hany')
        have hone : List.find? (fun p => p.1 == k) [(k, x)] = some (k, x) :=
          List.find?_cons_of_pos _ (by simp)
        simp only [setField, hany', Bool.false_eq_true, if_false, getField,
          List.find?_append, hnone, Option.none_or, hone]
  all_goals exact Bool.noConfusion h

theorem find?_replaceKey_other (kvs : List (String × Value)) (k k' : String) (x : Value)
    (h : (k' == k) = false) :
    ((kvs.map (fun p => if p.1 == k then (p.1, x) else p)).find? (fun p => p.1 == k')) =
      kvs.find? (fun p => p.1 == k') := by
  induction kvs with
  | nil => rfl
  | cons p rest ih =>
      rw [List.map_cons]
      by_cases hpk : (p.1 == k) = true
      · have hpe : p.1 = k := by simpa using hpk
        have hp' : (p.1 == k') = false := by
          rw [hpe]
          exact beq_eq_false_iff_ne.mpr (fun he => by simp [he] at h)
        rw [if_pos hpk]
        simp only [List.find?_cons, hp', cond_false, ih]
      · have hpk' : (p.1 == k) = false := Bool.eq_false_iff.mpr hpk
        rw [if_neg (by simp [hpk'])]
        simp only [List.find?_cons]
        cases hp' : (p.1 == k') <;> simp only [cond_true, cond_false, ih]

theorem getField_setField_other (v : Value) (k k' : String) (x : Value)
    (h : (k' == k) = false) : getField (setField v k x) k' = getField v k' := by
  cases v
  case obj kvs =>
      by_cases hany : kvs.any (fun p => p.1 == k) = true
      · simp only [setField, hany, if_true, getField, find?_replaceKey_other kvs k k' x h]
      · have hany' : kvs.any (fun p => p.1 == k) = false := Bool.eq_false_iff.mpr hany
        have hone : List.find? (fun p => p.1 == k') [(k, x)] = none := by
          have hkk : (k == k') = false :=
            beq_eq_false_iff_ne.mpr (fun he => by simp [he] at h)
          rw [List.find?_cons_of_neg _ (by simp [hkk])]
          rfl
        simp only [setField, hany', Bool.false_eq_true, if_false, getField,
          List.find?_append, hone, Option.or_none]
  all_goals rfl

theorem lookupPending_none_of_bounded (m : List (Nat × PendingProxyResolution)) (n : Nat)
    (h : ∀ k ∈ m.map Prod.fst, k < n) : lookupPending m n = none := by
  induction m with
  | nil => rfl
  | cons p rest ih =>
      have hp : p.1 < n := h p.1 (by simp)
      have hne : (p.1 == n) = false := beq_eq_false_iff_ne.mpr (by omega)
      simp only [lookupPending, List.find?_cons, hne, cond_false]
      exact ih (fun k hk => h k (by simp only [List.map_cons, List.mem_cons]; exact Or.inr hk))

theorem lookupPending_removePending (m : List (Nat × PendingProxyResolution)) (k : Nat) :
    lookupPending (removePending m k) k = none := by
  have hfind : (removePending m k).find? (fun p => p.1 == k) = none := by
    apply List.find?_eq_none.mpr
    intro p hp
    have hne := (List.mem_filter.mp hp).2
    simp at hne ⊢
    exact hne
  simp [lookupPending, hfind]

/-! Section: Claim theorems and witnesses -/

/-- Claim C3: For every ResponseConfig in which more than one of the static,
dynamic, and proxy variant tags is set, `resolve` fails with a
`ValidationError` and performs no side effects: the rule repository and the
pending-proxy map (the components of the resolver state) and the response
config itself are returned unchanged. -/
theorem resolve_multiple_types_rejected
    (ctx : Ctx) (st : ResolverState) (rc req opts : Value)
    (h : hasMultipleTypes rc = true) :
    resolve ctx st rc req opts =
      (.error (.validationError "each response object must have only one response type" rc),
       st, rc) := by
  simp only [resolve, h, if_true]

/-- Witness for C3: a config with both `is` and `proxy` set is rejected with
the state and config untouched. -/
theorem resolve_multiple_types_rejected_witness :
    hasMultipleTypes rcMulti = true ∧
    resolve ctxIn stInit rcMulti req0 .undefined =
      (.error (.validationError "each response object must have only one response type" rcMulti),
       stInit, rcMulti) :=
  ⟨rfl, resolve_multiple_types_rejected ctxIn stInit rcMulti req0 .undefined rfl⟩

/-- Claim C4: Calling `resolveProxy` with a resolution key that is not present
in the pending-proxy map (unknown, already consumed, or forged) fails with a
`MissingResourceError` whose diagnostic embeds the offending callback
address, and leaves the resolver state — in particular the Pending Proxy
Resolution set — unchanged. -/
theorem resolveProxy_unknown_key
    (ctx : Ctx) (st : ResolverState) (resp : Value) (k : Nat)
    (h : lookupPending st.pendingProxyResolutions k = none) :
    resolveProxy ctx st resp k =
      (.error (.missingResourceError "invalid proxy resolution key"
        (ctx.callbackURL ++ "/" ++ toString k)), st) := by
  simp only [resolveProxy, h]

/-- Witness for C4: key 7 was never allocated, so completion fails and the
state is untouched. -/
theorem resolveProxy_unknown_key_witness :
    lookupPending stInit.pendingProxyResolutions 7 = none ∧
    resolveProxy ctxOut stInit c1Resp 7 =
      (.error (.missingResourceError "invalid proxy resolution key"
        (ctxOut.callbackURL ++ "/" ++ toString 7)), stInit) :=
  ⟨rfl, resolveProxy_unknown_key ctxOut stInit c1Resp 7 rfl⟩

/-- Claim C5: For a dynamic (inject) ResponseConfig, a request flagged as a dry
run short-circuits evaluation: the result is the empty response and — the
statement holding for every context, hence for every supplied
response-computation logic and every sandboxed evaluator — the supplied
logic is never invoked. (The source's artificial `Q.delay(1)` scheduling hop
before completion has no observable effect in this synchronous embedding.) -/
theorem inject_dry_run
    (ctx : Ctx) (request fn : Value)
    (h : getField request "isDryRun" = .bool true) :
    inject ctx request fn = .ok (.obj []) := by
  simp only [inject, h]
  rfl

/-- Witness for C5: a dry-run request against a context whose evaluator would
return a non-empty response still yields the empty response. -/
theorem inject_dry_run_witness :
    inject { ctxIn with injectEval := fun _ _ => .ok (.obj [("body", .str "from logic")]) }
      (.obj [("isDryRun", .bool true)]) (.str "function (config) ...") = .ok (.obj []) :=
  inject_dry_run { ctxIn with injectEval := fun _ _ => .ok (.obj [("body", .str "from logic")]) }
    (.obj [("isDryRun", .bool true)]) (.str "function (config) ...") rfl

/-- Claim C7: Selector value extraction collapses its match set
deterministically: the empty string when the matched payload is
absent/undefined; the scalar itself when the match is inherently scalar
(non-list); the bare node value (not a one-element list) when exactly one
node matches; the full list of matched values when more than one node
matches. -/
theorem selectionValue_collapse :
    selectionValue .undefined = .str "" ∧
    (∀ v : Value, v ≠ .undefined → isArr v = false → selectionValue v = v) ∧
    (∀ x : Value, selectionValue (.arr [x]) = x) ∧
    (∀ xs : List Value, 1 < xs.length → selectionValue (.arr xs) = .arr xs) := by
  refine ⟨rfl, ?_, fun x => rfl, ?_⟩
  · intro v hv ha
    cases v
    case undefined => exact absurd rfl hv
    case arr xs => exact Bool.noConfusion ha
    all_goals rfl
  · intro xs h
    cases xs with
    | nil => simp at h
    | cons x rest =>
        cases rest with
        | nil => simp at h
        | cons y rest2 => rfl

/-- Witness for C7: a scalar (boolean) match is returned as-is, and a
two-node match set is returned whole as a list. -/
theorem selectionValue_collapse_witness :
    selectionValue (.bool true) = .bool true ∧
    selectionValue (.arr [.str "v1", .str "v2"]) = .arr [.str "v1", .str "v2"] :=
  ⟨selectionValue_collapse.2.1 (.bool true) (fun he => Value.noConfusion he) rfl,
   selectionValue_collapse.2.2.2 [.str "v1", .str "v2"] (by decide)⟩

/-- Claim C8: In `proxyTransparent` mode, recording a proxied exchange is a
no-op: for every request and observed response the Rule Repository is left
unchanged — no rule inserted, no response appended. -/
theorem recordProxyResponse_transparent_noop
    (ctx : Ctx) (rc req resp : Value) (stubList : List Stub)
    (h : proxyMode rc = .str "proxyTransparent") :
    recordProxyResponse ctx rc req resp stubList = stubList := by
  simp only [recordProxyResponse, h]
  rfl

/-- Witness for C8: a transparent-mode recording leaves a concrete repository
untouched. -/
theorem recordProxyResponse_transparent_noop_witness :
    recordProxyResponse ctxIn rcTransparent req0 c1Resp [proxyStubAlways] = [proxyStubAlways] :=
  recordProxyResponse_transparent_noop ctxIn rcTransparent req0 c1Resp [proxyStubAlways] rfl

/-- Claim C6: For a static ResponseConfig (no behaviors configured, so the
behavior pipeline is the identity on its absent `_behaviors`), `resolve`
returns a deep copy of the configured payload and touches nothing: the
resolver state and the stored config come back unchanged. The embedding
being value-semantic, the returned deep copy is its own immutable value, so
no mutation of it can reach the stored configuration; and since the theorem
holds for every state, any subsequent call with the same config returns the
same payload again — the round-trip/non-aliasing law. -/
theorem resolve_static_deep_copy
    (ctx : Ctx) (st : ResolverState) (rc req opts : Value)
    (hin : ctx.inProcessProxy = true)
    (his : truthy (getField rc "is") = true)
    (hmulti : hasMultipleTypes rc = false)
    (hbeh : ∀ rq r, ctx.behaviorsExecute rq r (getField rc "_behaviors") = r) :
    resolve ctx st rc req opts = (.ok (clone (getField rc "is")), st, rc) := by
  have hproxy : truthy (getField rc "proxy") = false := by
    simp only [hasMultipleTypes, his, Bool.true_and, Bool.or_eq_false_iff] at hmulti
    exact hmulti.1.1
  simp only [resolve, clone, hmulti, Bool.false_eq_true, if_false, processResponse, his,
    if_true, hproxy, hbeh, hin]

/-- Witness for C6: resolving a concrete static config yields the stored
payload, with state and config untouched. -/
theorem resolve_static_deep_copy_witness :
    resolve ctxIn stInit rcStatic req0 .undefined =
      (.ok (clone (getField rcStatic "is")), stInit, rcStatic) :=
  resolve_static_deep_copy ctxIn stInit rcStatic req0 .undefined rfl rfl rfl (fun _ _ => rfl)

/-- Claim C10: When a proxy ResponseConfig carries a recording mode that is
none of `proxyOnce`, `proxyAlways`, `proxyTransparent` (including an absent
mode), `resolve` does not fail: it rewrites the config's proxy metadata —
the returned config's mode reads `proxyOnce`, the rest of the proxy
configuration intact — and the exchange is exactly the one the explicitly
`proxyOnce`-moded config would produce. -/
theorem resolve_unknown_mode_defaults_to_proxyOnce
    (ctx : Ctx) (st : ResolverState) (rc req opts : Value)
    (hproxy : truthy (getField rc "proxy") = true)
    (hobj : isObject (getField rc "proxy") = true)
    (hmulti : hasMultipleTypes rc = false)
    (hmode : knownProxyMode rc = false) :
    (∃ v, (resolve ctx st rc req opts).1 = .ok v) ∧
    proxyMode (resolve ctx st rc req opts).2.2 = .str "proxyOnce" ∧
    resolve ctx st rc req opts = resolve ctx st (setProxyModeOnce rc) req opts := by
  have hrcobj : isObject rc = true := isObject_of_truthy_getField rc "proxy" hproxy
  have his : truthy (getField rc "is") = false := by
    simp only [hasMultipleTypes, Bool.or_eq_false_iff, Bool.and_eq_false_iff] at hmulti
    rcases hmulti.1.1 with h | h
    · exact h
    · exact absurd hproxy (by simp [h])
  -- the rewritten config
  have hproxy' : getField (setProxyModeOnce rc) "proxy" =
      setField (getField rc "proxy") "mode" (.str "proxyOnce") :=
    getField_setField_same rc "proxy" _ hrcobj
  have hmode' : proxyMode (setProxyModeOnce rc) = .str "proxyOnce" := by
    unfold proxyMode
    rw [hproxy']
    exact getField_setField_same _ "mode" _ hobj
  have htruthy' : truthy (getField (setProxyModeOnce rc) "proxy") = true := by
    rw [hproxy']
    exact truthy_setField_of_isObject _ "mode" _ hobj
  have his' : getField (setProxyModeOnce rc) "is" = getField rc "is" :=
    getField_setField_other rc "proxy" "is" _ rfl
  have hbeh' : getField (setProxyModeOnce rc) "_behaviors" = getField rc "_behaviors" :=
    getField_setField_other rc "proxy" "_behaviors" _ rfl
  have hinj' : getField (setProxyModeOnce rc) "inject" = getField rc "inject" :=
    getField_setField_other rc "proxy" "inject" _ rfl
  have hmulti' : hasMultipleTypes (setProxyModeOnce rc) = false := by
    simp only [hasMultipleTypes, his', hbeh', hinj', his, Bool.false_and, Bool.false_or]
    simp only [hasMultipleTypes, Bool.or_eq_false_iff, Bool.and_eq_false_iff] at hmulti
    rcases hmulti.2 with h | h
    · exact absurd hproxy (by simp [h])
    · simp [htruthy', h]
  have hknown' : knownProxyMode (setProxyModeOnce rc) = true := by
    simp only [knownProxyMode, hmode']
    rfl
  -- both sides dispatch through proxyAndRecord with the rewritten config
  have hpar : proxyAndRecord ctx st rc req opts =
      proxyAndRecord ctx st (setProxyModeOnce rc) req opts := by
    rw [proxyAndRecord, proxyAndRecord, hmode, hknown']
    simp only [Bool.false_eq_true, if_false, if_true]
  have hpar2 : (proxyAndRecord ctx st (setProxyModeOnce rc) req opts).2.2 =
      setProxyModeOnce rc := by
    rw [proxyAndRecord, hknown']
    simp only [if_true]
    by_cases hip : ctx.inProcessProxy = true
    · simp [hip]
    · simp [Bool.eq_false_iff.mpr hip]
  have hok : ∃ v, (proxyAndRecord ctx st (setProxyModeOnce rc) req opts).1 = .ok v := by
    rw [proxyAndRecord, hknown']
    simp only [if_true]
    by_cases hip : ctx.inProcessProxy = true
    · exact ⟨_, by rw [if_pos hip]⟩
    · exact ⟨_, by rw [if_neg hip]⟩
  have hres : resolve ctx st rc req opts = resolve ctx st (setProxyModeOnce rc) req opts := by
    simp only [resolve, clone, hmulti, hmulti', Bool.false_eq_true, if_false, processResponse,
      his, his', hproxy, htruthy', if_true, hpar]
  have hdisp : resolve ctx st (setProxyModeOnce rc) req opts =
      proxyAndRecord ctx st (setProxyModeOnce rc) req opts := by
    simp only [resolve, clone, hmulti', Bool.false_eq_true, if_false, processResponse, his',
      his, htruthy', if_true]
    rcases hpr : proxyAndRecord ctx st (setProxyModeOnce rc) req opts with ⟨r, st2, rc2⟩
    have hrc2 : rc2 = setProxyModeOnce rc := by
      have h2 := hpar2
      rw [hpr] at h2
      exact h2
    cases r with
    | error e => rfl
    | ok v =>
        subst hrc2
        simp [htruthy', ite_self]
  refine ⟨?_, ?_, hres⟩
  · rw [hres, hdisp]
    exact hok
  · rw [hres, hdisp, hpar2, hmode']

/-- Claim C9: Resolution keys for out-of-process proxy delegation are strictly
monotonically increasing and never reused while pending: under the freshness
invariant (every pending key is below the counter), a delegation stores its
Pending Proxy Resolution under the fresh key — the current counter value,
which is not pending — increments the counter by one, and returns a callback
address embedding exactly that key; the invariant is preserved by the
delegation; and a pending entry is removed exactly once, on its successful
completion, after which the key no longer resolves. -/
theorem proxy_resolution_keys
    (ctx : Ctx) (st : ResolverState) (rc req det : Value)
    (hout : ctx.inProcessProxy = false)
    (hinv : ∀ k ∈ st.pendingProxyResolutions.map Prod.fst, k < st.nextProxyResolutionKey) :
    lookupPending st.pendingProxyResolutions st.nextProxyResolutionKey = none ∧
    (proxyAndRecord ctx st rc req det).2.1.pendingProxyResolutions =
      st.pendingProxyResolutions ++
        [(st.nextProxyResolutionKey, ⟨(proxyAndRecord ctx st rc req det).2.2, req, det⟩)] ∧
    (proxyAndRecord ctx st rc req det).2.1.nextProxyResolutionKey =
      st.nextProxyResolutionKey + 1 ∧
    (proxyAndRecord ctx st rc req det).1 =
      .ok (.obj [("proxy", getField (proxyAndRecord ctx st rc req det).2.2 "proxy"),
                 ("request", req),
                 ("callbackURL",
                  .str (ctx.callbackURL ++ "/" ++ toString st.nextProxyResolutionKey))]) ∧
    (∀ k ∈ (proxyAndRecord ctx st rc req det).2.1.pendingProxyResolutions.map Prod.fst,
        k < (proxyAndRecord ctx st rc req det).2.1.nextProxyResolutionKey) ∧
    (∀ resp k e, lookupPending st.pendingProxyResolutions k = some e →
      (resolveProxy ctx st resp k).2.pendingProxyResolutions =
        removePending st.pendingProxyResolutions k ∧
      lookupPending ((resolveProxy ctx st resp k).2.pendingProxyResolutions) k = none) := by
  have hunfold : proxyAndRecord ctx st rc req det =
      (.ok (.obj [("proxy",
                   getField (if knownProxyMode rc then rc else setProxyModeOnce rc) "proxy"),
                  ("request", req),
                  ("callbackURL",
                   .str (ctx.callbackURL ++ "/" ++ toString st.nextProxyResolutionKey))]),
       { st with
          pendingProxyResolutions := st.pendingProxyResolutions ++
            [(st.nextProxyResolutionKey,
              ⟨if knownProxyMode rc then rc else setProxyModeOnce rc, req, det⟩)],
          nextProxyResolutionKey := st.nextProxyResolutionKey + 1 },
       if knownProxyMode rc then rc else setProxyModeOnce rc) := by
    rw [proxyAndRecord]
    simp only [hout, Bool.false_eq_true, if_false]
  refine ⟨lookupPending_none_of_bounded _ _ hinv, ?_, ?_, ?_, ?_, ?_⟩
  · rw [hunfold]
  · rw [hunfold]
  · rw [hunfold]
  · rw [hunfold]
    intro k hk
    show k < st.nextProxyResolutionKey + 1
    simp only [List.map_append, List.map_cons, List.map_nil, List.mem_append,
      List.mem_cons, List.not_mem_nil, or_false] at hk
    rcases hk with hk | hk
    · have := hinv k hk
      omega
    · omega
  · intro resp k e hk
    refine ⟨?_, ?_⟩
    · simp only [resolveProxy, hk]
    · simp only [resolveProxy, hk]
      exact lookupPending_removePending _ _

/-- Witness for C9: from an empty pending map with counter 0, a delegation
allocates key 0, stores the entry, bumps the counter, embeds key 0 in the
callback address, and completing key 0 removes it for good. -/
theorem proxy_resolution_keys_witness :
    lookupPending stInit.pendingProxyResolutions stInit.nextProxyResolutionKey = none ∧
    (proxyAndRecord ctxOut stInit rcAlways req0 .undefined).2.1.pendingProxyResolutions =
      stInit.pendingProxyResolutions ++
        [(stInit.nextProxyResolutionKey,
          ⟨(proxyAndRecord ctxOut stInit rcAlways req0 .undefined).2.2, req0, .undefined⟩)] ∧
    (proxyAndRecord ctxOut stInit rcAlways req0 .undefined).2.1.nextProxyResolutionKey =
      stInit.nextProxyResolutionKey + 1 ∧
    (proxyAndRecord ctxOut stInit rcAlways req0 .undefined).1 =
      .ok (.obj [("proxy", getField (proxyAndRecord ctxOut stInit rcAlways req0 .undefined).2.2 "proxy"),
                 ("request", req0),
                 ("callbackURL",
                  .str (ctxOut.callbackURL ++ "/" ++ toString stInit.nextProxyResolutionKey))]) ∧
    (∀ k ∈ (proxyAndRecord ctxOut stInit rcAlways req0 .undefined).2.1.pendingProxyResolutions.map
        Prod.fst,
        k < (proxyAndRecord ctxOut stInit rcAlways req0 .undefined).2.1.nextProxyResolutionKey) ∧
    (∀ resp k e, lookupPending stInit.pendingProxyResolutions k = some e →
      (resolveProxy ctxOut stInit resp k).2.pendingProxyResolutions =
        removePending stInit.pendingProxyResolutions k ∧
      lookupPending ((resolveProxy ctxOut stInit resp k).2.pendingProxyResolutions) k = none) :=
  proxy_resolution_keys ctxOut stInit rcAlways req0 .undefined rfl
    (fun k hk => absurd hk (by simp [stInit]))

/-- Claim C1, amended: In `proxyAlways` mode, when the repository scan finds
no existing rule whose predicate list is structurally identical to the
freshly generated predicates, recording synthesizes the brand-new Rule from
the generated predicates and the wrapped observed response exactly as
`proxyOnce` does — but it does not insert it as `proxyOnce` does: the
`proxyAlways` branch calls the repository's insert without the positioning
anchor, so the new Rule is appended at the end of the Rule Repository, not
immediately after the rule containing the originating proxy ResponseConfig. -/
theorem proxyAlways_new_rule_appended_at_end
    (ctx : Ctx) (rc req resp : Value) (stubs : List Stub)
    (hmode : proxyMode rc = .str "proxyAlways")
    (hnone : indexOfStubToAddResponseTo ctx rc req stubs = none) :
    recordProxyResponse ctx rc req resp stubs = stubs ++ [recordedStub ctx rc req resp] :=
  recordProxyResponse_appends ctx rc req resp stubs hmode hnone

/-- Witness for C1 (amended): a concrete no-match `proxyAlways` recording
appends the new rule at the end. -/
theorem proxyAlways_new_rule_appended_at_end_witness :
    proxyMode rcAlways = .str "proxyAlways" ∧
    indexOfStubToAddResponseTo ctxIn rcAlways req0 c1Stubs = none ∧
    recordProxyResponse ctxIn rcAlways req0 c1Resp c1Stubs =
      c1Stubs ++ [recordedStub ctxIn rcAlways req0 c1Resp] :=
  ⟨rfl, rfl, proxyAlways_new_rule_appended_at_end ctxIn rcAlways req0 c1Resp c1Stubs rfl rfl⟩

/-- Claim C1, counterexample: At this concrete input — the repository holds
the originating `proxyAlways` rule at index 0 and an unrelated rule at index
1, and the scan finds no predicate-identical rule — recording puts the new
rule at the end (index 2); it is *not* inserted immediately after the rule
containing the originating proxy ResponseConfig (index 1), which is where
the `proxyOnce`-style anchored insert would put it. -/
theorem proxyAlways_insert_position_counterexample :
    proxyMode rcAlways = .str "proxyAlways" ∧
    indexOfStubToAddResponseTo ctxIn rcAlways req0 c1Stubs = none ∧
    recordProxyResponse ctxIn rcAlways req0 c1Resp c1Stubs =
      [proxyStubAlways, otherStub, recordedStub ctxIn rcAlways req0 c1Resp] ∧
    addStub c1Stubs (recordedStub ctxIn rcAlways req0 c1Resp) (some rcAlways) =
      [proxyStubAlways, recordedStub ctxIn rcAlways req0 c1Resp, otherStub] ∧
    recordProxyResponse ctxIn rcAlways req0 c1Resp c1Stubs ≠
      addStub c1Stubs (recordedStub ctxIn rcAlways req0 c1Resp) (some rcAlways) := by
  refine ⟨rfl, rfl, rfl, rfl, ?_⟩
  intro h
  exact absurd (congrArg (fun l => (l[1]?.map (fun s => s.predicates.length))) h) (by decide)

/-- Claim C2: In `proxyAlways` mode, recording the same request three times —
the generated predicates being identical each time, since generation is a
pure function of the request and the generator specs — yields exactly one
new Rule holding the three accumulated responses: the first recording
appends the rule (no predicate-identical rule exists after the originating
one), and the next two extend its response list, the scan comparing
predicate lists by deep structural (canonical-form) equality and starting
just after the rule that produced the originating proxy exchange. -/
theorem proxyAlways_three_recordings
    (ctx : Ctx) (rc req r1 r2 r3 : Value) (stubs : List Stub)
    (hmode : proxyMode rc = .str "proxyAlways")
    (hfound : stubIndexFor rc stubs < stubs.length)
    (hnone : indexOfStubToAddResponseTo ctx rc req stubs = none) :
    recordProxyResponse ctx rc req r3
        (recordProxyResponse ctx rc req r2
          (recordProxyResponse ctx rc req r1 stubs)) =
      stubs ++ [{ predicates := predicatesFor ctx req (predicateGeneratorsOf rc),
                  responses := [newIsResponse r1 (getField rc "proxy"),
                                newIsResponse r2 (getField rc "proxy"),
                                newIsResponse r3 (getField rc "proxy")] }] := by
  have h1 := recordProxyResponse_appends ctx rc req r1 stubs hmode hnone
  have h2 := recordProxyResponse_extends ctx rc req r2 stubs (recordedStub ctx rc req r1)
    hmode hfound hnone rfl
  have h3 := recordProxyResponse_extends ctx rc req r3 stubs
    { recordedStub ctx rc req r1 with
        responses := (recordedStub ctx rc req r1).responses ++
          [newIsResponse r2 (getField rc "proxy")] }
    hmode hfound hnone rfl
  rw [h1, h2, h3]
  rfl

/-- Witness for C2: three concrete recordings against a repository holding
only the originating rule leave exactly one appended rule with the three
responses accumulated in order. -/
theorem proxyAlways_three_recordings_witness :
    recordProxyResponse ctxIn rcAlways req0 r3v
        (recordProxyResponse ctxIn rcAlways req0 r2v
          (recordProxyResponse ctxIn rcAlways req0 r1v [proxyStubAlways])) =
      [proxyStubAlways] ++
        [{ predicates := predicatesFor ctxIn req0 (predicateGeneratorsOf rcAlways),
           responses := [newIsResponse r1v (getField rcAlways "proxy"),
                         newIsResponse r2v (getField rcAlways "proxy"),
                         newIsResponse r3v (getField rcAlways "proxy")] }] :=
  proxyAlways_three_recordings ctxIn rcAlways req0 r1v r2v r3v [proxyStubAlways]
    rfl (by decide) rfl

/-- Witness for C10: a config whose mode reads `proxySometimes` resolves
without failing, comes back with mode `proxyOnce`, and behaves as the
rewritten config. -/
theorem resolve_unknown_mode_defaults_to_proxyOnce_witness :
    (∃ v, (resolve ctxIn stInit rcBadMode req0 .undefined).1 = .ok v) ∧
    proxyMode (resolve ctxIn stInit rcBadMode req0 .undefined).2.2 = .str "proxyOnce" ∧
    resolve ctxIn stInit rcBadMode req0 .undefined =
      resolve ctxIn stInit (setProxyModeOnce rcBadMode) req0 .undefined :=
  resolve_unknown_mode_defaults_to_proxyOnce ctxIn stInit rcBadMode req0 .undefined rfl rfl rfl rfl

end MbResolver
